import Mathlib

/-!
Verification of the carlo RPC core (rpc/rpc.js) against its specification.

The development is a shallow embedding of the JavaScript source:

* `Value` models the dynamic JavaScript values that flow through the codec
  (`wrap_` / `unwrap_`): primitives, arrays, plain objects, live handle
  proxies and the function stand-ins `unwrap_` produces for `isFunc`
  descriptors.
* `RpcState` models the mutable fields of the singleton `Rpc` instance of
  one world; JavaScript `Map`s become association lists with `Map`
  semantics (`aget` / `aset` / `adel`), and object identity of registered
  targets is modelled by keying targets by their address string.
* Asynchronous methods are modelled as pure state-passing functions: the
  source touches all of this state from a single logical thread per world,
  so `async` only affects interleaving with other turns, not the state
  transformation a single dispatch performs.
-/

namespace CarloRpc

/-- Descriptor built by `Rpc.describe_`: `{ isFunc: true }` for functions
(no `name` field, modelled as `name = none`) or `{ name: o.constructor.name }`
for objects (no `isFunc` field, absent = falsy, modelled as `isFunc = false`). -/
structure Descriptor where
  name : Option String
  isFunc : Bool
deriving DecidableEq, Repr

/-- A `Handle` as constructed by `new Handle(localAddress, address, descriptor, rpc)`.
`object_` is `null` (`none`) for handles made by `createHandle_`; `Rpc.handle`
sets it to the registered target object, which we model by the key of the
target in `RpcState.objects_` (JavaScript object identity becomes key
identity). An `Address` is the pair `(worldId, localId)`. -/
structure Handle where
  localAddress_ : String × String
  address_ : String × String
  descriptor_ : Descriptor
  object_ : Option String
deriving DecidableEq, Repr

/-- Dynamic JavaScript values handled by the codec. `vnull` stands for both
`null` and `undefined` (the source distinguishes them only through
truthiness, which they share). `vhandle` is a live proxy carrying
`handleSymbol`; `vclosure` is the plain arrow function `unwrap_` returns
for a wire token whose descriptor has `isFunc` (it does not carry
`handleSymbol`). -/
inductive Value where
  | vstr (s : String)
  | vnum (n : Int)
  | vbool (b : Bool)
  | vnull
  | varr (items : List Value)
  | vobj (fields : List (String × Value))
  | vhandle (h : Handle)
  | vclosure (h : Handle)

/-- JavaScript truthiness (`if (!param) ...`): `null`/`undefined`, `false`,
`0` and the empty string are falsy; every object, array, proxy and function
is truthy. -/
def jsTruthy : Value → Bool
  | .vnull => false
  | .vbool b => b
  | .vnum n => n != 0
  | .vstr s => s != ""
  | _ => true

/-- `String.prototype.startsWith`, modelled over the character sequence (the
built-in `String.startsWith` of this toolchain does not reduce in the
kernel). -/
def jsStartsWith (s pre : String) : Bool := pre.data.isPrefixOf s.data

/-- `String.prototype.endsWith`, modelled over the character sequence. -/
def jsEndsWith (s suf : String) : Bool := suf.data.isSuffixOf s.data

/-- `Map.get` on an association list (first binding wins, as keys are unique
under `aset` / `adel`). -/
def aget {κ β : Type} [DecidableEq κ] : List (κ × β) → κ → Option β
  | [], _ => none
  | (k, v) :: rest, key => if k = key then some v else aget rest key

/-- `Map.set`: overwrite in place or append, preserving insertion order. -/
def aset {β : Type} : List (String × β) → String → β → List (String × β)
  | [], key, v => [(key, v)]
  | (k, w) :: rest, key, v =>
      if k = key then (key, v) :: rest else (k, w) :: aset rest key v

/-- `Map.delete`. -/
def adel {β : Type} (l : List (String × β)) (key : String) : List (String × β) :=
  l.filter (fun kv => kv.1 ≠ key)

/-- A thrown JavaScript `Error`: `message` plus the runtime-assigned `stack`
string (the source forwards `e.toString() + '\n' + e.stack`). -/
structure JsError where
  message : String
  stack : String
deriving DecidableEq, Repr

/-- `e.toString()` for an `Error`. -/
def JsError.render (e : JsError) : String := "Error: " ++ e.message

/-- Stack contents are runtime-dependent; the model uses an opaque constant
for errors constructed by the rpc source itself (`new Error(...)`). -/
def errStack : String := "    at <anonymous>"

/-- `new Error(msg)` thrown by the rpc source. -/
def mkError (msg : String) : JsError := ⟨msg, errStack⟩

/-- A member of an exported object: either a non-callable property value or
a callable method (`typeof value === 'function'`). Methods receive the
already-unwrapped argument list and may throw. -/
inductive Member where
  | data (v : Value)
  | method (f : List Value → Except JsError Value)

/-- A target object passed to `rpc.handle`: a plain invocable function or an
object with a constructor name and enumerable own properties. -/
inductive Target where
  | funcT (f : List Value → Except JsError Value)
  | objT (ctorName : String) (props : List (String × Member))

/-- The mutable fields of the per-world singleton `Rpc` instance.
`worlds_` keeps only the child world ids (their delivery functions are
modelled by naming the receiving child in the routing result); `callbacks_`
keeps the pending correlation ids (the `fulfill`/`reject` closures are
modelled by reporting which one fires in the dispatch result);
`objects_` holds the targets registered by `rpc.handle`, keyed by the
address local id that `Handle.object_` stores. -/
structure RpcState where
  lastHandleId_ : Nat
  lastWorldId_ : Nat
  worlds_ : List String
  idToHandle_ : List (String × Handle)
  objects_ : List (String × Target)
  lastMessageId_ : Nat
  callbacks_ : List Nat
  worldId_ : String
  cookieCallback_ : Bool
  cookieResponseCallbacks_ : List String

/-- The freshly constructed root `Rpc` instance (`new Rpc()`), world id `"."`. -/
def initialState : RpcState :=
  { lastHandleId_ := 0
    lastWorldId_ := 0
    worlds_ := []
    idToHandle_ := []
    objects_ := []
    lastMessageId_ := 0
    callbacks_ := []
    worldId_ := "."
    cookieCallback_ := false
    cookieResponseCallbacks_ := [] }

/-- `Rpc.describe_`: `{ isFunc: true }` for a function, `{ name: o.constructor.name }`
otherwise. No other information (in particular no member list) is recorded. -/
def describe_ : Target → Descriptor
  | .funcT _ => ⟨none, true⟩
  | .objT ctorName _ => ⟨some ctorName, false⟩

/-- The local-id part of a fresh address: `descriptor.name + '#' + (++lastHandleId_)`.
When `name` is absent (function descriptors) JavaScript concatenation prints
`undefined`. -/
def freshLocalId (descriptor : Descriptor) (id : Nat) : String :=
  descriptor.name.getD "undefined" ++ "#" ++ toString id

/-- The fresh-handle path shared by both branches of `Rpc.createHandle_`:
allocate a local address from the bumped counter and build a non-primary
handle (`object_ = null`). -/
def createFresh (st : RpcState) (address : String × String)
    (descriptor : Descriptor) : RpcState × Handle :=
  let id := st.lastHandleId_ + 1
  let localAddress := (st.worldId_, freshLocalId descriptor id)
  ({ st with lastHandleId_ := id },
   ⟨localAddress, address, descriptor, none⟩)

/-- `Rpc.createHandle_(address, descriptor)`: when the address is in the
local world and a handle is registered under its local id, return that
registered handle; otherwise construct a fresh non-primary handle. -/
def createHandle_ (st : RpcState) (address : String × String)
    (descriptor : Descriptor) : RpcState × Handle :=
  if address.1 = st.worldId_ then
    match aget st.idToHandle_ address.2 with
    | some existing => (st, existing)
    | none => createFresh st address descriptor
  else createFresh st address descriptor

/-- `Rpc.handle(object)`: build the descriptor, allocate a fresh address,
construct the primary handle (its `object_` references the target, modelled
by the registration key), register it, and hand the proxy (`vhandle`) to the
caller. The falsy-argument and handle-to-handle guards of the source are
vacuous here because the argument type is already a target object. -/
def handle (st : RpcState) (object : Target) : RpcState × Value :=
  let descriptor := describe_ object
  let id := st.lastHandleId_ + 1
  let address := (st.worldId_, freshLocalId descriptor id)
  let h : Handle := ⟨address, address, descriptor, some address.2⟩
  ({ st with
      lastHandleId_ := id
      idToHandle_ := aset st.idToHandle_ address.2 h
      objects_ := aset st.objects_ address.2 object },
   .vhandle h)

/-- `Rpc.dispose(proxy)`: throws unless the handle was created locally by
`rpc.handle` (`object_` set); otherwise deletes its address from
`idToHandle_`. (The message spelling follows the source.) -/
def dispose (st : RpcState) (h : Handle) : Except String RpcState :=
  if h.object_.isNone then
    .error "Can only dipose handle that was explicitly created with rpc.handle()"
  else
    .ok { st with idToHandle_ := adel st.idToHandle_ h.address_.2 }

/-- The raw `descriptor` object embedded in a wire token by `wrap_`
(`{ __rpc_a__: handle.address_, descriptor: handle.descriptor_ }` copies
the descriptor object as-is). -/
def descriptorToValue (d : Descriptor) : Value :=
  if d.isFunc then .vobj [("isFunc", .vbool true)]
  else .vobj [("name", .vstr (d.name.getD "undefined"))]

/-- Reading a `Descriptor` back from a wire value (field access with
JavaScript coercion defaults on malformed input; the source only ever sends
the two shapes produced by `descriptorToValue`). -/
def descOfValue : Option Value → Descriptor
  | some (.vobj fields) =>
      ⟨match aget fields "name" with
       | some (.vstr s) => some s
       | _ => none,
       jsTruthy ((aget fields "isFunc").getD .vnull)⟩
  | _ => ⟨none, false⟩

/-- Reading an `Address` (`address[0]`, `address[1]`) from a wire value;
the source only ever sends two-element string arrays. Malformed input is
coerced to empty strings. -/
def addrOfValue : Value → String × String
  | .varr (.vstr w :: .vstr i :: _) => (w, i)
  | _ => ("", "")

mutual

/-- `Rpc.wrap_(param, maxDepth)`. The depth guard (`if (!maxDepth) throw`)
runs first; the decremented depth is what recursive calls receive. The
source's early `if (!param) return param` short-circuit only ever fires on
primitive values, which the final catch-all returns unchanged as well, so
the two coincide; proxies (`param[handleSymbol]`), arrays and plain objects
are always truthy. A plain function (`vclosure`) falls through every test
and is returned as-is. -/
def wrap_ : Value → Nat → Except String Value
  | _, 0 => .error "Object reference chain is too long"
  | .vhandle h, _ + 1 =>
      .ok (.vobj [("__rpc_a__", .varr [.vstr h.address_.1, .vstr h.address_.2]),
                  ("descriptor", descriptorToValue h.descriptor_)])
  | .varr items, d + 1 => (wrapList items d).map .varr
  | .vobj fields, d + 1 => (wrapFields fields d).map .vobj
  | v, _ + 1 => .ok v

/-- `param.map(item => this.wrap_(item, maxDepth))`: left to right, the
first thrown error propagates. -/
def wrapList : List Value → Nat → Except String (List Value)
  | [], _ => .ok []
  | x :: xs, d =>
      match wrap_ x d with
      | .error e => .error e
      | .ok w =>
          match wrapList xs d with
          | .error e => .error e
          | .ok ws => .ok (w :: ws)

/-- `for (const key in param) result[key] = this.wrap_(param[key], maxDepth)`:
keys in insertion order, values wrapped recursively. -/
def wrapFields : List (String × Value) → Nat → Except String (List (String × Value))
  | [], _ => .ok []
  | (k, x) :: xs, d =>
      match wrap_ x d with
      | .error e => .error e
      | .ok w =>
          match wrapFields xs d with
          | .error e => .error e
          | .ok ws => .ok ((k, w) :: ws)

end

/-- The default `maxDepth` argument of `Rpc.wrap_`. -/
def defaultMaxDepth : Nat := 1000

mutual

/-- `Rpc.unwrap_(param)`. A plain object whose `__rpc_a__` field is truthy
is a wire token: resolve it through `createHandle_` and return the proxy,
or a plain-function stand-in when the descriptor has `isFunc`. Other
objects and arrays recurse structurally; primitives and plain functions
pass through (`!param` / final `return param`). A live proxy fed back into
`unwrap_` is unreachable from every call site (the source only unwraps
wire data produced by `wrap_`); its proxy get-trap would answer the
`__rpc_a__` probe with a truthy bound function, so the model sends it down
the token path with coerced defaults, matching the observable outcome
(counter bump, fresh non-function proxy). -/
def unwrap_ (st : RpcState) : Value → RpcState × Value
  | .vobj fields =>
      match aget fields "__rpc_a__" with
      | some a =>
          if jsTruthy a then
            let (st1, h) := createHandle_ st (addrOfValue a)
              (descOfValue (aget fields "descriptor"))
            (st1, if h.descriptor_.isFunc then .vclosure h else .vhandle h)
          else
            let (st1, ws) := unwrapFields st fields
            (st1, .vobj ws)
      | none =>
          let (st1, ws) := unwrapFields st fields
          (st1, .vobj ws)
  | .varr items =>
      let (st1, ws) := unwrapList st items
      (st1, .varr ws)
  | .vhandle _ =>
      let (st1, h) := createHandle_ st ("", "") ⟨some "bound callMethod_", false⟩
      (st1, .vhandle h)
  | v => (st, v)

/-- `param.map(item => this.unwrap_(item))`, threading the handle cache. -/
def unwrapList (st : RpcState) : List Value → RpcState × List Value
  | [] => (st, [])
  | x :: xs =>
      let (st1, v) := unwrap_ st x
      let (st2, vs) := unwrapList st1 xs
      (st2, v :: vs)

/-- `for (const key in param) result[key] = this.unwrap_(param[key])`. -/
def unwrapFields (st : RpcState) :
    List (String × Value) → RpcState × List (String × Value)
  | [] => (st, [])
  | (k, x) :: xs =>
      let (st1, v) := unwrap_ st x
      let (st2, vs) := unwrapFields st1 xs
      (st2, (k, v) :: vs)

end

mutual

/-- JavaScript string coercion of a value as used by template literals in
the source's error messages (arrays join their elements with commas,
objects print as `[object Object]`). The proxy and stand-in cases are never
interpolated by any reachable message and are approximated. -/
def jsValToString : Value → String
  | .vstr s => s
  | .vnum n => toString n
  | .vbool b => if b then "true" else "false"
  | .vnull => "null"
  | .varr items => jsValListToString items
  | .vobj _ => "[object Object]"
  | .vhandle _ => "[object Object]"
  | .vclosure _ => "function"

/-- `Array.prototype.toString`: elements joined with commas. -/
def jsValListToString : List Value → String
  | [] => ""
  | [x] => jsValToString x
  | x :: xs => jsValToString x ++ "," ++ jsValListToString xs

end

/-- The members every plain object inherits from `Object.prototype`,
closed over the object's own properties where the receiver matters. The
model covers the representative callable subset relevant to member lookup
(`valueOf` and `constructor`, whose results are not expressible as codec
values, are omitted). All are callable, none is enumerable. -/
def protoMember (own : List (String × Member)) (m : String) : Option Member :=
  if m = "toString" ∨ m = "toLocaleString" then
    some (.method fun _ => .ok (.vstr "[object Object]"))
  else if m = "hasOwnProperty" ∨ m = "propertyIsEnumerable" then
    some (.method fun args => .ok (.vbool (match args.head? with
      | some (.vstr s) => (aget own s).isSome
      | _ => false)))
  else if m = "isPrototypeOf" then
    some (.method fun _ => .ok (.vbool false))
  else none

/-- The `in` operator on the target: own properties first, then the
prototype chain. A `funcT` target is only ever paired with an `isFunc`
descriptor, so its member branch is unreachable; it is modelled as empty. -/
def jsHasMember : Target → String → Bool
  | .funcT _, _ => false
  | .objT _ props, m => (aget props m).isSome || (protoMember props m).isSome

/-- Property read `this.object_[message.m]`: own property, else prototype. -/
def jsGetMember : Target → String → Option Member
  | .funcT _, _ => none
  | .objT _ props, m =>
      match aget props m with
      | some mem => some mem
      | none => protoMember props m

/-- The target object a handle's `object_` reference points to
(`none` for non-primary handles, whose `object_` is `null`). -/
def resolveObj (st : RpcState) (h : Handle) : Option Target :=
  h.object_.bind (aget st.objects_)

/-- `this.rpc_.wrap_(result)` with the default depth; a wrap failure is a
thrown `Error` that the caller's `try`/`catch` observes. -/
def wrapResult (v : Value) : Except JsError Value :=
  match wrap_ v defaultMaxDepth with
  | .ok w => .ok w
  | .error msg => .error (mkError msg)

/-- A TypeError raised by the JavaScript runtime itself. -/
def mkTypeError (msg : String) : JsError := ⟨msg, errStack⟩

/-- `Handle.dispatchMessage_(message)` for a message `{ m, p }` (`p` is the
wire-level argument array). Branch order follows the source: the `isFunc`
descriptor branch first; then the private-name guard; then the `in`
membership test; then the callable test with property-read semantics for
non-callables; finally invocation of the member with unwrapped arguments.
Exceptions become `Except.error`; the null-target paths are runtime
`TypeError`s and are unreachable for handles registered by `rpc.handle`. -/
def dispatchMessage (st : RpcState) (h : Handle) (m : String) (p : List Value) :
    RpcState × Except JsError Value :=
  if h.descriptor_.isFunc then
    match resolveObj st h with
    | some (.funcT f) =>
        let (st1, args) := unwrapList st p
        match f args with
        | .error e => (st1, .error e)
        | .ok r => (st1, wrapResult r)
    | _ => (st, .error (mkTypeError "this.object_ is not a function"))
  else if jsStartsWith m "_" || jsEndsWith m "_" then
    (st, .error (mkError ("Private members are not exposed over RPC: '" ++ m ++ "'")))
  else
    match resolveObj st h with
    | none =>
        (st, .error (mkTypeError "Cannot use 'in' operator to search in null"))
    | some tgt =>
        if !jsHasMember tgt m then
          (st, .error (mkError ("There is no member '" ++ m ++ "' in '" ++
            h.descriptor_.name.getD "undefined" ++ "'")))
        else
          match jsGetMember tgt m with
          | some (.data v) =>
              if p.length ≠ 0 then
                (st, .error (mkError ("'" ++ m ++ "' is not a function, can't pass args '" ++
                  jsValToString (.varr p) ++ "'")))
              else (st, wrapResult v)
          | some (.method f) =>
              let (st1, args) := unwrapList st p
              match f args with
              | .error e => (st1, .error e)
              | .ok r => (st1, wrapResult r)
          | none =>
              (st, .error (mkTypeError "member lookup failed"))

/-- A call message `{ m, p }` as built by `Handle.callMethod_`. -/
structure Message where
  m : String
  p : List Value

/-- A routed payload. Optional fields model the presence or absence of the
corresponding JavaScript properties (`rid` present means
`typeof payload.rid === 'number'`). -/
structure Payload where
  cookie : Bool := false
  cookieResponse : Bool := false
  worldId : String := ""
  args : Value := .vnull
  r : Option Value := none
  e : Option String := none
  to_ : String × String := ("", "")
  from_ : String × String := ("", "")
  id : Option Nat := none
  rid : Option Nat := none
  message : Option Message := none

/-- What one invocation of `dispatchMessageLocally_` does, beyond its state
update: `threw` models an exception escaping the async function (an
unhandled promise rejection — the caller does not await it); `completed`
models the response branch firing the pending completion `rid` with a
rejection (`Except.error`, from a truthy `payload.e`) or a fulfillment
carrying `payload.r`; `respond` models the call branch handing a response
envelope to `routeMessage_`. -/
inductive DispatchResult where
  | threw (msg : String)
  | completed (rid : Nat) (outcome : Except String (Option Value))
  | respond (response : Payload)

/-- The runtime error raised by
`const {fulfill, reject} = this.callbacks_.get(payload.rid)` when the id
is unknown (destructuring `undefined`); the exact text is runtime-specific. -/
def destructureError : String :=
  "TypeError: Cannot destructure property 'fulfill' of 'this.callbacks_.get(...)' as it is undefined."

/-- `Rpc.dispatchMessageLocally_(payload)`. The response branch destructures
the pending completion (throwing a `TypeError` when the id is unknown),
removes it and fires it — `reject(new Error(payload.e))` when `payload.e`
is truthy, `fulfill(payload.r)` otherwise. The call branch builds the
response envelope `{ from: payload.to, rid: payload.id, to: payload.from }`,
answers `'Object has been diposed.'` when no handle is registered at the
destination's local id, and otherwise runs `dispatchMessage_` under
`try`/`catch`, turning a thrown error into `e.toString() + '\n' + e.stack`.
The final `routeMessage_(false, message)` of the source is modelled by
returning the envelope in `DispatchResult.respond`. -/
def dispatchMessageLocally (st : RpcState) (payload : Payload) :
    RpcState × DispatchResult :=
  match payload.rid with
  | some rid =>
      if rid ∈ st.callbacks_ then
        ({ st with callbacks_ := st.callbacks_.filter (fun i => i ≠ rid) },
         .completed rid
           (match payload.e with
            | some s => if s ≠ "" then .error s else .ok payload.r
            | none => .ok payload.r))
      else (st, .threw destructureError)
  | none =>
      let base : Payload := { to_ := payload.from_, from_ := payload.to_, rid := payload.id }
      match aget st.idToHandle_ payload.to_.2 with
      | none => (st, .respond { base with e := some "Object has been diposed." })
      | some h =>
          let msg := (payload.message).getD ⟨"", []⟩
          let (st1, res) := dispatchMessage st h msg.m msg.p
          match res with
          | .ok r => (st1, .respond { base with r := some r })
          | .error err =>
              (st1, .respond { base with e := some (err.render ++ "\n" ++ err.stack) })

/-- `Rpc.sendCommand_(to, from, message)`: allocate the next correlation id,
park a pending completion under it, and build the enveloped payload that is
then handed to `routeMessage_(false, payload)`. -/
def sendCommand_ (st : RpcState) (to_ from_ : String × String) (message : Message) :
    RpcState × Payload :=
  let id := st.lastMessageId_ + 1
  ({ st with lastMessageId_ := id, callbacks_ := st.callbacks_ ++ [id] },
   { to_ := to_, from_ := from_, message := some message, id := some id })

/-- `Rpc.isActiveWorld_(worldId)`: the current world itself, or any world
id extending a registered child world id. -/
def isActiveWorld_ (st : RpcState) (worldId : String) : Bool :=
  st.worldId_ = worldId || st.worlds_.any (fun wid => jsStartsWith worldId wid)

/-- Where `routeMessage_` sends a payload: the two handshake branches (which
also mutate handshake state), the two silent drops, local dispatch, a named
child world's delivery function, or the parent's delivery function. -/
inductive RouteResult where
  | cookieHandled
  | cookieResponseHandled
  | dropGuard
  | dispatchLocal
  | toChild (worldId : String)
  | dropDisposed
  | toParent

/-- `Rpc.routeMessage_(fromParent, payload)`. Handshake branches first: a
`cookie` payload adopts the announced world id (before unwrapping the
arguments, which can allocate handles) and fires/clears the one-shot init
callback; a `cookieResponse` payload fires and removes the pending
world-creation completion. Then, in order: the reliability guard dropping
messages from inactive sender worlds, local dispatch, forwarding to the
first child world whose id is a prefix of the destination world id, the
disposed-descendant drop, and forwarding to the parent. Local dispatch and
delivery effects are modelled by the returned `RouteResult`. -/
def routeMessage_ (st : RpcState) (fromParent : Bool) (payload : Payload) :
    RpcState × RouteResult :=
  if payload.cookie then
    let st1 := { st with worldId_ := payload.worldId }
    let (st2, _) := unwrap_ st1 payload.args
    ({ st2 with cookieCallback_ := false }, .cookieHandled)
  else if payload.cookieResponse then
    let st1 := { st with
      cookieResponseCallbacks_ :=
        st.cookieResponseCallbacks_.filter (fun w => w ≠ payload.worldId) }
    let (st2, _) := unwrap_ st1 ((payload.r).getD .vnull)
    (st2, .cookieResponseHandled)
  else if !fromParent && !isActiveWorld_ st payload.from_.1 then
    (st, .dropGuard)
  else if payload.to_.1 = st.worldId_ then
    (st, .dispatchLocal)
  else
    match st.worlds_.find? (fun wid => jsStartsWith payload.to_.1 wid) with
    | some wid => (st, .toChild wid)
    | none =>
        if jsStartsWith payload.to_.1 st.worldId_ then (st, .dropDisposed)
        else (st, .toParent)

/-! ### Structural predicates on codec values -/

mutual

/-- A value built only from strings, numbers, booleans, null, arrays and
plain records — the structurally-serializable values, with no live handles
and no function stand-ins anywhere. -/
def structuralOnly : Value → Bool
  | .vstr _ => true
  | .vnum _ => true
  | .vbool _ => true
  | .vnull => true
  | .varr items => structuralOnlyList items
  | .vobj fields => structuralOnlyFields fields
  | .vhandle _ => false
  | .vclosure _ => false

def structuralOnlyList : List Value → Bool
  | [] => true
  | x :: xs => structuralOnly x && structuralOnlyList xs

def structuralOnlyFields : List (String × Value) → Bool
  | [] => true
  | (_, x) :: xs => structuralOnly x && structuralOnlyFields xs

end

mutual

/-- No record anywhere in the value carries a truthy `__rpc_a__` field —
such a record would be mistaken for a wire handle token by `unwrap_`. -/
def noRpcToken : Value → Bool
  | .varr items => noRpcTokenList items
  | .vobj fields =>
      (match aget fields "__rpc_a__" with
       | some a => !jsTruthy a
       | none => true) && noRpcTokenFields fields
  | _ => true

def noRpcTokenList : List Value → Bool
  | [] => true
  | x :: xs => noRpcToken x && noRpcTokenList xs

def noRpcTokenFields : List (String × Value) → Bool
  | [] => true
  | (_, x) :: xs => noRpcToken x && noRpcTokenFields xs

end

mutual

/-- Nesting depth of a value: 1 for leaves, one more than the deepest
element for containers. `wrap_` succeeds on handle-free values exactly when
the starting depth is at least this. -/
def valueDepth : Value → Nat
  | .varr items => 1 + valueDepthList items
  | .vobj fields => 1 + valueDepthFields fields
  | _ => 1

def valueDepthList : List Value → Nat
  | [] => 0
  | x :: xs => max (valueDepth x) (valueDepthList xs)

def valueDepthFields : List (String × Value) → Nat
  | [] => 0
  | (_, x) :: xs => max (valueDepth x) (valueDepthFields xs)

end

/-- A linear nest of arrays: `nest k` has nesting depth `k + 1`. -/
def nest : Nat → Value
  | 0 => .vnum 1
  | k + 1 => .varr [nest k]

/-! ### Heap model for cyclic structures

Cyclic JavaScript object graphs cannot be expressed in the inductive
`Value` type, so the termination behaviour of `wrap_` on them is settled
over an explicit heap: object nodes live in a store addressed by `Nat`
references, and `wrapHeap` is `wrap_` re-read over that graph, with the
source's own `maxDepth` counter as the recursion fuel — the source
decrements it before every recursion into a container and throws when it
reaches zero, exactly as modelled here. -/

/-- A primitive (non-object) heap value: passes through `wrap_` unchanged. -/
inductive HAtom where
  | astr (s : String)
  | anum (n : Int)
  | abool (b : Bool)
  | anull
deriving DecidableEq, Repr

/-- An inline heap value: a primitive or a reference to a stored node. -/
inductive HValue where
  | hatom (a : HAtom)
  | href (n : Nat)
deriving DecidableEq, Repr

/-- A stored object node: an array or a plain record of heap values. -/
inductive HNode where
  | harr (items : List HValue)
  | hobj (fields : List (String × HValue))

/-- The codec value of a primitive heap value. -/
def HAtom.toValue : HAtom → Value
  | .astr s => .vstr s
  | .anum n => .vnum n
  | .abool b => .vbool b
  | .anull => .vnull

mutual

/-- `Rpc.wrap_` read over a heap of possibly-cyclic object nodes: the depth
guard first, primitives pass through, and references recurse into their
node's elements with the decremented depth. (A dangling reference cannot
occur in a JavaScript object graph; it is mapped to `null`.) -/
def wrapHeap (store : List (Nat × HNode)) : HValue → Nat → Except String Value
  | _, 0 => .error "Object reference chain is too long"
  | .hatom a, _ + 1 => .ok a.toValue
  | .href n, d + 1 =>
      match aget store n with
      | some (.harr items) => (wrapHeapList store items d).map .varr
      | some (.hobj fields) => (wrapHeapFields store fields d).map .vobj
      | none => .ok .vnull

def wrapHeapList (store : List (Nat × HNode)) :
    List HValue → Nat → Except String (List Value)
  | [], _ => .ok []
  | x :: xs, d =>
      match wrapHeap store x d with
      | .error e => .error e
      | .ok w =>
          match wrapHeapList store xs d with
          | .error e => .error e
          | .ok ws => .ok (w :: ws)

def wrapHeapFields (store : List (Nat × HNode)) :
    List (String × HValue) → Nat → Except String (List (String × Value))
  | [], _ => .ok []
  | (k, x) :: xs, d =>
      match wrapHeap store x d with
      | .error e => .error e
      | .ok w =>
          match wrapHeapFields store xs d with
          | .error e => .error e
          | .ok ws => .ok ((k, w) :: ws)

end

/-- The self-referential record of the spec's cycle scenario:
`const a = {}; a.a = a;`. -/
def selfRefStore : List (Nat × HNode) := [(0, .hobj [("a", .href 0)])]

/-! ### Spec-side routing description (claim C1) -/

/-- Modelled from the claim's wording, for comparison with `routeMessage_`:
drop when the message did not arrive from the parent and the declared
sender's world id is neither the current world id nor a descendant of a
registered child world; dispatch locally when the destination world id is
the current one; forward to a registered child world whose id is a prefix
of the destination world id; drop when the current world id is a prefix of
the destination world id (a now-disposed descendant); otherwise forward to
the parent. -/
def routeSpecC1 (st : RpcState) (fromParent : Bool) (payload : Payload) : RouteResult :=
  if !fromParent &&
      !(st.worldId_ = payload.from_.1 ||
        st.worlds_.any (fun wid => jsStartsWith payload.from_.1 wid)) then
    .dropGuard
  else if payload.to_.1 = st.worldId_ then
    .dispatchLocal
  else
    match st.worlds_.find? (fun wid => jsStartsWith payload.to_.1 wid) with
    | some wid => .toChild wid
    | none =>
        if jsStartsWith payload.to_.1 st.worldId_ then .dropDisposed
        else .toParent

/-- A world state with everything but the handle-allocation counter: the
codec's handle resolution (`createHandle_`) mutates only `lastHandleId_`,
which this projection quotients away. -/
def sansCounter (st : RpcState) : RpcState := { st with lastHandleId_ := 0 }

/-! ### Concrete inputs used by witnesses and counterexamples -/

/-- A foreign-world wire descriptor. -/
def descA : Descriptor := ⟨some "A", false⟩

/-- An address living in child world `./1`, as seen from the root world. -/
def foreignAddr : String × String := ("./1", "A#1")

/-- A structurally-serializable record that collides with the wire-token
shape: a plain object whose `__rpc_a__` key holds a truthy value. -/
def badV : Value :=
  .vobj [("__rpc_a__", .varr [.vstr ".", .vstr "X#9"]),
         ("descriptor", .vobj [("name", .vstr "X")])]

/-- An exported object with no own members. -/
def tgtA : Target := .objT "A" []

/-- Root world after `rpc.handle(new A())`: `A#1` registered. -/
def stA : RpcState := (handle initialState tgtA).1

/-- The primary handle registered by `handle initialState tgtA`. -/
def hA : Handle := ⟨(".", "A#1"), (".", "A#1"), descA, some "A#1"⟩

/-- The exception a failing exported method throws. -/
def boomErr : JsError := ⟨"boom", "    at Boom.fail"⟩

/-- An exported object whose only method throws. -/
def tgtBoom : Target := .objT "Boom" [("fail", .method fun _ => .error boomErr)]

/-- Root world after exporting `tgtBoom` (registered as `Boom#1`). -/
def stBoom : RpcState := (handle initialState tgtBoom).1

/-- The primary handle for `tgtBoom`. -/
def hBoom : Handle := ⟨(".", "Boom#1"), (".", "Boom#1"), ⟨some "Boom", false⟩, some "Boom#1"⟩

/-- An inbound call of the throwing method. -/
def pBoom : Payload :=
  { to_ := (".", "Boom#1"), from_ := (".", "undefined#5"), id := some 7,
    message := some ⟨"fail", []⟩ }

/-- Own properties of `tgtFoo`: one working method. -/
def fooProps : List (String × Member) := [("hello", .method fun _ => .ok (.vstr "hi"))]

/-- An exported object with one working method. -/
def tgtFoo : Target := .objT "Foo" fooProps

/-- Root world after exporting `tgtFoo` (registered as `Foo#1`). -/
def stFoo : RpcState := (handle initialState tgtFoo).1

/-- The primary handle for `tgtFoo`. -/
def hFoo : Handle := ⟨(".", "Foo#1"), (".", "Foo#1"), ⟨some "Foo", false⟩, some "Foo#1"⟩

/-- A non-primary (remote-facing) handle: `object_` is `null`. -/
def secondaryHandle : Handle := ⟨(".", "A#2"), foreignAddr, descA, none⟩

/-- `stFoo` after `rpc.dispose` of the `Foo#1` primary handle. -/
def stFooDisposed : RpcState :=
  { stFoo with idToHandle_ := adel stFoo.idToHandle_ "Foo#1" }

/-- A call addressed to the disposed `Foo#1`. -/
def pFooCall : Payload :=
  { to_ := (".", "Foo#1"), from_ := (".", "caller#9"), id := some 3,
    message := some ⟨"hello", []⟩ }

/-- Own properties of `tgtMix`: a non-callable property, a callable method,
and a private-named method. -/
def mixProps : List (String × Member) :=
  [("answer", .data (.vnum 42)),
   ("twice", .method fun args => .ok (.varr (args ++ args))),
   ("secret_", .method fun _ => .ok (.vstr "hidden"))]

/-- An exported object exercising every member-resolution branch. -/
def tgtMix : Target := .objT "Mix" mixProps

/-- Root world after exporting `tgtMix` (registered as `Mix#1`). -/
def stMix : RpcState := (handle initialState tgtMix).1

/-- The primary handle for `tgtMix`. -/
def hMix : Handle := ⟨(".", "Mix#1"), (".", "Mix#1"), ⟨some "Mix", false⟩, some "Mix#1"⟩

/-- A mid-tree world `./2` with one registered child `./2/1`. -/
def stRoute : RpcState := { initialState with worldId_ := "./2", worlds_ := ["./2/1"] }

/-- A payload addressed to a grandchild below `./2/1`, sent by `./2` itself. -/
def pRoute : Payload :=
  { to_ := ("./2/1/3", "B#1"), from_ := ("./2", "A#1"), id := some 1,
    message := some ⟨"m", []⟩ }

/-- A world with two in-flight calls pending. -/
def stC8 : RpcState := { initialState with callbacks_ := [1, 2] }

/-- A response envelope whose reverse-correlation id matches no pending call. -/
def pC8 : Payload := { rid := some 5, r := some (.vstr "dup") }

/-- Two exported objects with the same constructor name but different
member sets. -/
def fooWithMember : Target := .objT "Foo" [("bar", .method fun _ => .ok .vnull)]

/-- Same constructor name as `fooWithMember`, no members. -/
def fooWithout : Target := .objT "Foo" []

/-- A nested structurally-serializable sample value. -/
def sampleV : Value :=
  .vobj [("a", .varr [.vnum 1, .vstr "two", .vbool true, .vnull]),
         ("b", .vobj [("c", .vnum 0)])]

/-! ## Helper lemmas -/

theorem one_le_valueDepth (v : Value) : 1 ≤ valueDepth v := by
  cases v <;> simp [valueDepth]

theorem structuralOnlyList_mem {l : List Value} (hl : structuralOnlyList l = true) :
    ∀ x ∈ l, structuralOnly x = true := by
  induction l with
  | nil => intro x hx; cases hx
  | cons y ys ih =>
      rw [structuralOnlyList, Bool.and_eq_true] at hl
      intro x hx
      rcases List.mem_cons.mp hx with h | h
      · exact h ▸ hl.1
      · exact ih hl.2 x h

theorem structuralOnlyFields_mem {l : List (String × Value)}
    (hl : structuralOnlyFields l = true) : ∀ kv ∈ l, structuralOnly kv.2 = true := by
  induction l with
  | nil => intro kv hkv; cases hkv
  | cons y ys ih =>
      rcases y with ⟨k, x⟩
      rw [structuralOnlyFields, Bool.and_eq_true] at hl
      intro kv hkv
      rcases List.mem_cons.mp hkv with h | h
      · exact h ▸ hl.1
      · exact ih hl.2 kv h

theorem noRpcTokenList_mem {l : List Value} (hl : noRpcTokenList l = true) :
    ∀ x ∈ l, noRpcToken x = true := by
  induction l with
  | nil => intro x hx; cases hx
  | cons y ys ih =>
      rw [noRpcTokenList, Bool.and_eq_true] at hl
      intro x hx
      rcases List.mem_cons.mp hx with h | h
      · exact h ▸ hl.1
      · exact ih hl.2 x h

theorem noRpcTokenFields_mem {l : List (String × Value)}
    (hl : noRpcTokenFields l = true) : ∀ kv ∈ l, noRpcToken kv.2 = true := by
  induction l with
  | nil => intro kv hkv; cases hkv
  | cons y ys ih =>
      rcases y with ⟨k, x⟩
      rw [noRpcTokenFields, Bool.and_eq_true] at hl
      intro kv hkv
      rcases List.mem_cons.mp hkv with h | h
      · exact h ▸ hl.1
      · exact ih hl.2 kv h

theorem valueDepthList_le {l : List Value} : ∀ x ∈ l, valueDepth x ≤ valueDepthList l := by
  induction l with
  | nil => intro x hx; cases hx
  | cons y ys ih =>
      intro x hx
      rcases List.mem_cons.mp hx with h | h
      · subst h; rw [valueDepthList]; exact Nat.le_max_left _ _
      · exact Nat.le_trans (ih x h) (by rw [valueDepthList]; exact Nat.le_max_right _ _)

theorem valueDepthFields_le {l : List (String × Value)} :
    ∀ kv ∈ l, valueDepth kv.2 ≤ valueDepthFields l := by
  induction l with
  | nil => intro kv hkv; cases hkv
  | cons y ys ih =>
      rcases y with ⟨k, x⟩
      intro kv hkv
      rcases List.mem_cons.mp hkv with h | h
      · subst h; rw [valueDepthFields]; exact Nat.le_max_left _ _
      · exact Nat.le_trans (ih kv h) (by rw [valueDepthFields]; exact Nat.le_max_right _ _)

theorem wrapList_ok {d : Nat} {l : List Value}
    (h : ∀ x ∈ l, wrap_ x d = .ok x) : wrapList l d = .ok l := by
  induction l with
  | nil => rfl
  | cons x xs ih =>
      rw [wrapList, h x (List.mem_cons_self x xs),
        ih (fun y hy => h y (List.mem_cons_of_mem x hy))]

theorem wrapFields_ok {d : Nat} {l : List (String × Value)}
    (h : ∀ kv ∈ l, wrap_ kv.2 d = .ok kv.2) : wrapFields l d = .ok l := by
  induction l with
  | nil => rfl
  | cons kv xs ih =>
      rcases kv with ⟨k, x⟩
      rw [wrapFields, h ⟨k, x⟩ (List.mem_cons_self _ xs),
        ih (fun y hy => h y (List.mem_cons_of_mem _ hy))]

theorem wrap_structural : ∀ (d : Nat) (v : Value), structuralOnly v = true →
    valueDepth v ≤ d → wrap_ v d = .ok v := by
  intro d
  induction d with
  | zero =>
      intro v hs hd
      have := one_le_valueDepth v
      omega
  | succ d ih =>
      intro v hs hd
      cases v with
      | vstr s => simp [wrap_]
      | vnum n => simp [wrap_]
      | vbool b => simp [wrap_]
      | vnull => simp [wrap_]
      | vhandle h => simp [structuralOnly] at hs
      | vclosure h => simp [structuralOnly] at hs
      | varr items =>
          have hdl : valueDepthList items ≤ d := by
            rw [valueDepth] at hd; omega
          have hlist : ∀ x ∈ items, wrap_ x d = .ok x := fun x hx =>
            ih x (structuralOnlyList_mem (by simpa [structuralOnly] using hs) x hx)
              (Nat.le_trans (valueDepthList_le x hx) hdl)
          simp [wrap_, wrapList_ok hlist, Except.map]
      | vobj fields =>
          have hdl : valueDepthFields fields ≤ d := by
            rw [valueDepth] at hd; omega
          have hlist : ∀ kv ∈ fields, wrap_ kv.2 d = .ok kv.2 := fun kv hkv =>
            ih kv.2 (structuralOnlyFields_mem (by simpa [structuralOnly] using hs) kv hkv)
              (Nat.le_trans (valueDepthFields_le kv hkv) hdl)
          simp [wrap_, wrapFields_ok hlist, Except.map]

theorem unwrapList_id {l : List Value}
    (h : ∀ x ∈ l, ∀ st, unwrap_ st x = (st, x)) :
    ∀ st : RpcState, unwrapList st l = (st, l) := by
  induction l with
  | nil => intro st; rfl
  | cons x xs ih =>
      intro st
      have h1 := h x (List.mem_cons_self x xs) st
      have h2 := ih (fun y hy => h y (List.mem_cons_of_mem x hy)) st
      simp [unwrapList, h1, h2]

theorem unwrapFields_id {l : List (String × Value)}
    (h : ∀ kv ∈ l, ∀ st, unwrap_ st kv.2 = (st, kv.2)) :
    ∀ st : RpcState, unwrapFields st l = (st, l) := by
  induction l with
  | nil => intro st; rfl
  | cons kv xs ih =>
      rcases kv with ⟨k, x⟩
      intro st
      have h1 := h ⟨k, x⟩ (List.mem_cons_self _ xs) st
      have h2 := ih (fun y hy => h y (List.mem_cons_of_mem _ hy)) st
      simp [unwrapFields, h1, h2]

theorem unwrap_structural : ∀ (d : Nat) (v : Value), structuralOnly v = true →
    noRpcToken v = true → valueDepth v ≤ d → ∀ st, unwrap_ st v = (st, v) := by
  intro d
  induction d with
  | zero =>
      intro v hs ht hd
      have := one_le_valueDepth v
      omega
  | succ d ih =>
      intro v hs ht hd st
      cases v with
      | vstr s => rfl
      | vnum n => rfl
      | vbool b => rfl
      | vnull => rfl
      | vhandle h => simp [structuralOnly] at hs
      | vclosure h => simp [structuralOnly] at hs
      | varr items =>
          have hdl : valueDepthList items ≤ d := by
            rw [valueDepth] at hd; omega
          have hlist : ∀ x ∈ items, ∀ st1, unwrap_ st1 x = (st1, x) := fun x hx =>
            ih x (structuralOnlyList_mem (by simpa [structuralOnly] using hs) x hx)
              (noRpcTokenList_mem (by simpa [noRpcToken] using ht) x hx)
              (Nat.le_trans (valueDepthList_le x hx) hdl)
          simp [unwrap_, unwrapList_id hlist st]
      | vobj fields =>
          have hdl : valueDepthFields fields ≤ d := by
            rw [valueDepth] at hd; omega
          have htf : noRpcTokenFields fields = true := by
            rw [noRpcToken, Bool.and_eq_true] at ht; exact ht.2
          have hlist : ∀ kv ∈ fields, ∀ st1, unwrap_ st1 kv.2 = (st1, kv.2) := fun kv hkv =>
            ih kv.2 (structuralOnlyFields_mem (by simpa [structuralOnly] using hs) kv hkv)
              (noRpcTokenFields_mem htf kv hkv)
              (Nat.le_trans (valueDepthFields_le kv hkv) hdl)
          cases htok : aget fields "__rpc_a__" with
          | none => simp [unwrap_, htok, unwrapFields_id hlist st]
          | some a =>
              have hfalse : jsTruthy a = false := by
                rw [noRpcToken, Bool.and_eq_true, htok] at ht
                simpa using ht.1
              simp [unwrap_, htok, hfalse, unwrapFields_id hlist st]

theorem wrap_nest_ok : ∀ (k d : Nat), k < d → wrap_ (nest k) d = .ok (nest k) := by
  intro k
  induction k with
  | zero =>
      intro d hd
      match d, hd with
      | d' + 1, _ => rfl
  | succ k ih =>
      intro d hd
      match d, hd with
      | d' + 1, hd =>
          have hk : k < d' := Nat.lt_of_succ_lt_succ hd
          simp [nest, wrap_, wrapList, ih d' hk, Except.map]

theorem wrap_nest_err : ∀ k : Nat,
    wrap_ (nest k) k = .error "Object reference chain is too long" := by
  intro k
  induction k with
  | zero => rfl
  | succ k ih => simp [nest, wrap_, wrapList, ih, Except.map]

theorem wrapHeap_selfRef : ∀ d : Nat,
    wrapHeap selfRefStore (.href 0) d = .error "Object reference chain is too long" := by
  intro d
  induction d with
  | zero => simp [wrapHeap]
  | succ d ih =>
      have ihl : wrapHeap [(0, HNode.hobj [("a", HValue.href 0)])] (HValue.href 0) d =
          .error "Object reference chain is too long" := ih
      simp [wrapHeap, selfRefStore, aget, wrapHeapFields, ihl, Except.map]

/-! ## Claim C3 -/

/-- C3: `wrap_` enforces a traversal depth bound whose default starting
value is 1000; wrapping the self-referential record `a.a = a` fails with
the "reference chain too long" error at every fuel value — in particular at
the default — so `wrap_` terminates on cyclic input (in the model, all
codec functions are total by construction, with the source's own `maxDepth`
counter as the fuel); a non-cyclic structure nested up to the configured
bound (`nest k` has nesting depth `k + 1`) wraps successfully, and one
nested one level beyond the bound fails with the same error. -/
theorem wrap_depth_bound :
    defaultMaxDepth = 1000 ∧
    (∀ d, wrapHeap selfRefStore (.href 0) d =
      .error "Object reference chain is too long") ∧
    (∀ d k, k < d → wrap_ (nest k) d = .ok (nest k)) ∧
    (∀ d, wrap_ (nest d) d = .error "Object reference chain is too long") :=
  ⟨rfl, wrapHeap_selfRef, fun d k h => wrap_nest_ok k d h, wrap_nest_err⟩

/-- Witness for C3 at the default bound: depth-1000 nesting wraps, the
self-cycle and depth-1001 nesting fail. -/
theorem wrap_depth_bound_witness :
    wrap_ (nest 999) defaultMaxDepth = .ok (nest 999) ∧
    wrap_ (nest 1000) defaultMaxDepth = .error "Object reference chain is too long" ∧
    wrapHeap selfRefStore (.href 0) defaultMaxDepth =
      .error "Object reference chain is too long" :=
  ⟨wrap_depth_bound.2.2.1 1000 999 (by decide),
   wrap_depth_bound.2.2.2 1000,
   wrap_depth_bound.2.1 defaultMaxDepth⟩

/-! ## Claim C2 -/

/-- C2 (amended): for every structurally-serializable value (strings,
numbers, booleans, null, arrays, plain records; no live handles) within
the depth bound **and containing no record whose `__rpc_a__` key holds a
truthy value**, `unwrap_` of `wrap_` returns the value unchanged —
sequences keep their element order and records their key list — and the
world state is untouched. -/
theorem unwrap_wrap_round_trip (st : RpcState) (v : Value)
    (hs : structuralOnly v = true) (ht : noRpcToken v = true)
    (hd : valueDepth v ≤ defaultMaxDepth) :
    ∃ w, wrap_ v defaultMaxDepth = .ok w ∧ unwrap_ st w = (st, v) :=
  ⟨v, wrap_structural defaultMaxDepth v hs hd,
   unwrap_structural (valueDepth v) v hs ht (Nat.le_refl _) st⟩

/-- Witness for C2 on a concrete nested record. -/
theorem unwrap_wrap_round_trip_witness :
    ∃ w, wrap_ sampleV defaultMaxDepth = .ok w ∧
      unwrap_ initialState w = (initialState, sampleV) :=
  unwrap_wrap_round_trip initialState sampleV rfl rfl (by decide)

/-- C2 counterexample: the claim as stated fails. `badV` is built only from
strings, arrays and records and contains no live handle, yet
`unwrap_(wrap_(badV))` is a handle proxy, not `badV`: its `__rpc_a__` key
makes the wire image indistinguishable from a handle token. -/
theorem round_trip_fails_on_token_shaped_record :
    structuralOnly badV = true ∧
    wrap_ badV defaultMaxDepth = .ok badV ∧
    (unwrap_ initialState badV).2 ≠ badV := by
  refine ⟨rfl, wrap_structural defaultMaxDepth badV rfl (by decide), ?_⟩
  intro hEq
  have h2 : (unwrap_ initialState badV).2 =
      Value.vhandle ⟨(".", "X#1"), (".", "X#9"), ⟨some "X", false⟩, none⟩ := rfl
  rw [h2] at hEq
  exact Value.noConfusion hEq

/-! ## Claim C4 -/

/-- C4 counterexample: unwrapping the same foreign-world wire address twice
within one world does **not** yield the identical Handle instance —
`createHandle_` allocates a fresh handle each time (their local addresses
even differ, `A#1` vs `A#2`). -/
theorem foreign_address_not_cached :
    (createHandle_ initialState foreignAddr descA).2 ≠
      (createHandle_ (createHandle_ initialState foreignAddr descA).1
        foreignAddr descA).2 := by
  decide

/-- C4 (amended): handle identity on repeated unwrap holds exactly in the
registered-local case: when the address's world id is the current world id
and a primary handle is registered under its local id, `createHandle_`
returns that registered instance both times (whatever descriptor
accompanies the address) and leaves the state unchanged; foreign-world
addresses (and unregistered local ones) get a fresh handle on every
unwrap. -/
theorem createHandle_cached_when_registered (st : RpcState)
    (addr : String × String) (d1 d2 : Descriptor) (h : Handle)
    (hw : addr.1 = st.worldId_) (hreg : aget st.idToHandle_ addr.2 = some h) :
    createHandle_ st addr d1 = (st, h) ∧ createHandle_ st addr d2 = (st, h) := by
  constructor <;> simp [createHandle_, hw, hreg]

/-- Witness for C4 (amended): the registered `A#1` is returned unchanged on
both unwraps. -/
theorem createHandle_cached_witness :
    createHandle_ stA (".", "A#1") descA = (stA, hA) ∧
    createHandle_ stA (".", "A#1") descA = (stA, hA) :=
  createHandle_cached_when_registered stA (".", "A#1") descA descA hA rfl rfl

/-! ## Claim C9 -/

/-- C9 counterexample: the Descriptor contains no member list — two
exported objects with the same constructor name but different callable
member sets receive identical Descriptors — and the Descriptor of a plain
function contains no type name at all. -/
theorem descriptor_carries_no_member_list :
    describe_ fooWithMember = describe_ fooWithout ∧
    (describe_ (.funcT fun _ => .ok .vnull)).name = none :=
  ⟨rfl, rfl⟩

/-- C9 (amended): the Descriptor built by `describe_` at handle-creation
time is `{ isFunc: true }` (and nothing else) for a plain invocable
function, and `{ name: constructor name }` (and nothing else) for a
non-function object; in particular it never contains a member list —
member resolution happens dynamically at dispatch time. -/
theorem describe_shape :
    (∀ f, describe_ (.funcT f) = ⟨none, true⟩) ∧
    (∀ ctorName props, describe_ (.objT ctorName props) = ⟨some ctorName, false⟩) ∧
    (∀ ctorName props1 props2,
      describe_ (.objT ctorName props1) = describe_ (.objT ctorName props2)) :=
  ⟨fun _ => rfl, fun _ _ => rfl, fun _ _ _ => rfl⟩

/-! ## Claims C5 and C10 -/

theorem jsHasMember_of_get {ctorName : String} {props : List (String × Member)}
    {m : String} {mem : Member}
    (h : jsGetMember (.objT ctorName props) m = some mem) :
    jsHasMember (.objT ctorName props) m = true := by
  rw [jsGetMember] at h
  rw [jsHasMember]
  cases ho : aget props m with
  | some _ => simp [ho]
  | none =>
      rw [ho] at h
      simp at h
      simp [ho, h]

/-- C5: member resolution for an inbound call `{m, p}` on a primary handle
wrapping a non-function object proceeds in source order — a name starting
or ending with `'_'` fails with the private-member error even when the
member exists and is callable; otherwise a name absent from the target
(own properties and prototype) fails with the "no such member" error;
otherwise a non-callable member fails when arguments were supplied and is
returned as its wrapped current value when none were; otherwise the
callable member is invoked on the unwrapped arguments and its result is
wrapped and returned (or its thrown error propagated to the dispatch
`catch`). -/
theorem dispatch_member_resolution (st : RpcState) (h : Handle)
    (ctorName : String) (props : List (String × Member)) (m : String)
    (p : List Value)
    (hf : h.descriptor_.isFunc = false)
    (hobj : resolveObj st h = some (.objT ctorName props)) :
    ((jsStartsWith m "_" || jsEndsWith m "_") = true →
      dispatchMessage st h m p =
        (st, .error (mkError
          ("Private members are not exposed over RPC: '" ++ m ++ "'")))) ∧
    ((jsStartsWith m "_" || jsEndsWith m "_") = false →
      jsHasMember (.objT ctorName props) m = false →
      dispatchMessage st h m p =
        (st, .error (mkError ("There is no member '" ++ m ++ "' in '" ++
          h.descriptor_.name.getD "undefined" ++ "'")))) ∧
    ((jsStartsWith m "_" || jsEndsWith m "_") = false →
      ∀ v, jsGetMember (.objT ctorName props) m = some (.data v) →
        (p.length ≠ 0 →
          dispatchMessage st h m p =
            (st, .error (mkError ("'" ++ m ++ "' is not a function, can't pass args '" ++
              jsValToString (.varr p) ++ "'")))) ∧
        (p.length = 0 → dispatchMessage st h m p = (st, wrapResult v))) ∧
    ((jsStartsWith m "_" || jsEndsWith m "_") = false →
      ∀ f, jsGetMember (.objT ctorName props) m = some (.method f) →
        dispatchMessage st h m p =
          ((unwrapList st p).1,
           match f (unwrapList st p).2 with
           | .error e => .error e
           | .ok r => wrapResult r)) := by
  refine ⟨?_, ?_, ?_, ?_⟩
  · intro hpriv
    simp [dispatchMessage, hf, hpriv]
  · intro hpriv hmem
    simp [dispatchMessage, hf, hpriv, hobj, hmem]
  · intro hpriv v hget
    have hmem := jsHasMember_of_get hget
    constructor
    · intro hp
      simp [dispatchMessage, hf, hpriv, hobj, hmem, hget, hp]
    · intro hp
      simp [dispatchMessage, hf, hpriv, hobj, hmem, hget, hp]
  · intro hpriv f hget
    have hmem := jsHasMember_of_get hget
    rcases hq : unwrapList st p with ⟨st1, args⟩
    simp [dispatchMessage, hf, hpriv, hobj, hmem, hget, hq]
    cases f args <;> rfl

/-- Witness for C5: all four branches at concrete inputs on `tgtMix`. -/
theorem dispatch_member_resolution_witness :
    dispatchMessage stMix hMix "secret_" [] =
      (stMix, .error (mkError "Private members are not exposed over RPC: 'secret_'")) ∧
    dispatchMessage stMix hMix "missing" [] =
      (stMix, .error (mkError "There is no member 'missing' in 'Mix'")) ∧
    dispatchMessage stMix hMix "answer" [.vnum 1] =
      (stMix, .error (mkError "'answer' is not a function, can't pass args '1'")) ∧
    dispatchMessage stMix hMix "answer" [] = (stMix, .ok (.vnum 42)) ∧
    dispatchMessage stMix hMix "twice" [.vnum 3] =
      (stMix, .ok (.varr [.vnum 3, .vnum 3])) := by
  have h1 := (dispatch_member_resolution stMix hMix "Mix" mixProps "secret_" []
    rfl rfl).1 rfl
  have h2 := (dispatch_member_resolution stMix hMix "Mix" mixProps "missing" []
    rfl rfl).2.1 rfl rfl
  have h3 := (dispatch_member_resolution stMix hMix "Mix" mixProps "answer" [.vnum 1]
    rfl rfl).2.2.1 rfl (.vnum 42) rfl
  have h4 := (dispatch_member_resolution stMix hMix "Mix" mixProps "answer" []
    rfl rfl).2.2.1 rfl (.vnum 42) rfl
  have h5 := (dispatch_member_resolution stMix hMix "Mix" mixProps "twice" [.vnum 3]
    rfl rfl).2.2.2 rfl (fun args => .ok (.varr (args ++ args))) rfl
  exact ⟨h1, h2, (h3.1 (by decide)).trans rfl, (h4.2 rfl).trans rfl, h5.trans rfl⟩

/-- C10: the membership test of `dispatchMessage_` is the JavaScript `in`
operator, which consults the prototype chain: a call naming `toString` —
inherited from `Object.prototype` by every plain object — on an exported
object with no own `toString` is not rejected with "no such member"; the
inherited member resolves, is callable, and its wrapped result
`"[object Object]"` is returned. -/
theorem inherited_member_dispatch (st : RpcState) (h : Handle)
    (ctorName : String) (props : List (String × Member))
    (hf : h.descriptor_.isFunc = false)
    (hobj : resolveObj st h = some (.objT ctorName props))
    (hown : aget props "toString" = none) :
    dispatchMessage st h "toString" [] = (st, .ok (.vstr "[object Object]")) := by
  have hpriv : (jsStartsWith "toString" "_" || jsEndsWith "toString" "_") = false := rfl
  have hget : jsGetMember (.objT ctorName props) "toString" =
      some (.method fun _ => .ok (.vstr "[object Object]")) := by
    simp [jsGetMember, hown, protoMember]
  have hmem := jsHasMember_of_get hget
  have hw : wrapResult (.vstr "[object Object]") = .ok (.vstr "[object Object]") := rfl
  simp [dispatchMessage, hf, hpriv, hobj, hmem, hget, unwrapList, hw]

/-- Witness for C10: `toString` on the exported `tgtFoo`. -/
theorem inherited_member_dispatch_witness :
    dispatchMessage stFoo hFoo "toString" [] = (stFoo, .ok (.vstr "[object Object]")) :=
  inherited_member_dispatch stFoo hFoo "Foo" fooProps rfl rfl rfl

/-! ## State-preservation lemmas for local dispatch -/

theorem sansCounter_createHandle (st : RpcState) (a : String × String)
    (dsc : Descriptor) : sansCounter (createHandle_ st a dsc).1 = sansCounter st := by
  rw [createHandle_]
  by_cases hw : a.1 = st.worldId_
  · rw [if_pos hw]
    cases aget st.idToHandle_ a.2 <;> rfl
  · rw [if_neg hw]
    rfl

theorem sansCounter_unwrapList_pointwise {l : List Value}
    (h : ∀ x ∈ l, ∀ st : RpcState, sansCounter (unwrap_ st x).1 = sansCounter st) :
    ∀ st : RpcState, sansCounter (unwrapList st l).1 = sansCounter st := by
  induction l with
  | nil => intro st; rfl
  | cons x xs ih =>
      intro st
      rcases hq1 : unwrap_ st x with ⟨st1, v⟩
      rcases hq2 : unwrapList st1 xs with ⟨st2, vs⟩
      have e1 := h x (List.mem_cons_self x xs) st
      rw [hq1] at e1
      have e2 := ih (fun y hy => h y (List.mem_cons_of_mem x hy)) st1
      rw [hq2] at e2
      simp [unwrapList, hq1, hq2]
      exact e2.trans e1

theorem sansCounter_unwrapFields_pointwise {l : List (String × Value)}
    (h : ∀ kv ∈ l, ∀ st : RpcState, sansCounter (unwrap_ st kv.2).1 = sansCounter st) :
    ∀ st : RpcState, sansCounter (unwrapFields st l).1 = sansCounter st := by
  induction l with
  | nil => intro st; rfl
  | cons kv xs ih =>
      rcases kv with ⟨k, x⟩
      intro st
      rcases hq1 : unwrap_ st x with ⟨st1, v⟩
      rcases hq2 : unwrapFields st1 xs with ⟨st2, vs⟩
      have e1 := h ⟨k, x⟩ (List.mem_cons_self _ xs) st
      rw [hq1] at e1
      have e2 := ih (fun y hy => h y (List.mem_cons_of_mem _ hy)) st1
      rw [hq2] at e2
      simp [unwrapFields, hq1, hq2]
      exact e2.trans e1

theorem sansCounter_unwrap_aux : ∀ (d : Nat) (v : Value) (st : RpcState),
    valueDepth v ≤ d → sansCounter (unwrap_ st v).1 = sansCounter st := by
  intro d
  induction d with
  | zero =>
      intro v st hd
      have := one_le_valueDepth v
      omega
  | succ d ih =>
      intro v st hd
      cases v with
      | vstr s => rfl
      | vnum n => rfl
      | vbool b => rfl
      | vnull => rfl
      | vclosure h => rfl
      | vhandle h =>
          rcases hq : createHandle_ st ("", "") ⟨some "bound callMethod_", false⟩
            with ⟨st1, h1⟩
          have := sansCounter_createHandle st ("", "") ⟨some "bound callMethod_", false⟩
          rw [hq] at this
          simp [unwrap_, hq, this]
      | varr items =>
          have hdl : valueDepthList items ≤ d := by
            rw [valueDepth] at hd; omega
          have hp : ∀ x ∈ items, ∀ st1 : RpcState,
              sansCounter (unwrap_ st1 x).1 = sansCounter st1 := fun x hx st1 =>
            ih x st1 (Nat.le_trans (valueDepthList_le x hx) hdl)
          rcases hq : unwrapList st items with ⟨st1, vs⟩
          have := sansCounter_unwrapList_pointwise hp st
          rw [hq] at this
          simp [unwrap_, hq, this]
      | vobj fields =>
          have hdl : valueDepthFields fields ≤ d := by
            rw [valueDepth] at hd; omega
          have hp : ∀ kv ∈ fields, ∀ st1 : RpcState,
              sansCounter (unwrap_ st1 kv.2).1 = sansCounter st1 := fun kv hkv st1 =>
            ih kv.2 st1 (Nat.le_trans (valueDepthFields_le kv hkv) hdl)
          cases htok : aget fields "__rpc_a__" with
          | none =>
              rcases hq : unwrapFields st fields with ⟨st1, vs⟩
              have := sansCounter_unwrapFields_pointwise hp st
              rw [hq] at this
              simp [unwrap_, htok, hq, this]
          | some a =>
              by_cases htr : jsTruthy a = true
              · rcases hq : createHandle_ st (addrOfValue a)
                    (descOfValue (aget fields "descriptor")) with ⟨st1, h1⟩
                have := sansCounter_createHandle st (addrOfValue a)
                  (descOfValue (aget fields "descriptor"))
                rw [hq] at this
                simp [unwrap_, htok, htr, hq, this]
              · rcases hq : unwrapFields st fields with ⟨st1, vs⟩
                have := sansCounter_unwrapFields_pointwise hp st
                rw [hq] at this
                simp [unwrap_, htok, htr, hq, this]

theorem sansCounter_unwrapList_all (l : List Value) (st : RpcState) :
    sansCounter (unwrapList st l).1 = sansCounter st :=
  sansCounter_unwrapList_pointwise
    (fun x _ st1 => sansCounter_unwrap_aux (valueDepth x) x st1 (Nat.le_refl _)) st

/-- A single local dispatch touches, at most, the handle-allocation
counter: registry, exports, pending completions and routing state survive
it unchanged. -/
theorem sansCounter_dispatch (st : RpcState) (h : Handle) (m : String)
    (p : List Value) : sansCounter (dispatchMessage st h m p).1 = sansCounter st := by
  rcases hq : unwrapList st p with ⟨st1, args⟩
  have e1 := sansCounter_unwrapList_all p st
  rw [hq] at e1
  cases hf : h.descriptor_.isFunc with
  | true =>
      cases hr : resolveObj st h with
      | none => simp [dispatchMessage, hf, hr]
      | some tgt =>
          cases tgt with
          | funcT f =>
              cases hfa : f args with
              | error e => simp [dispatchMessage, hf, hr, hq, hfa, e1]
              | ok r => simp [dispatchMessage, hf, hr, hq, hfa, e1]
          | objT c props => simp [dispatchMessage, hf, hr]
  | false =>
      by_cases hpriv : (jsStartsWith m "_" || jsEndsWith m "_") = true
      · simp [dispatchMessage, hf, hpriv]
      · cases hr : resolveObj st h with
        | none => simp [dispatchMessage, hf, hpriv, hr]
        | some tgt =>
            cases hmem : jsHasMember tgt m with
            | false => simp [dispatchMessage, hf, hpriv, hr, hmem]
            | true =>
                cases hg : jsGetMember tgt m with
                | none => simp [dispatchMessage, hf, hpriv, hr, hmem, hg]
                | some mem =>
                    cases mem with
                    | data v =>
                        by_cases hp : p.length = 0
                        · simp [dispatchMessage, hf, hpriv, hr, hmem, hg, hp]
                        · simp [dispatchMessage, hf, hpriv, hr, hmem, hg, hp]
                    | method f =>
                        cases hfa : f args with
                        | error e =>
                            simp [dispatchMessage, hf, hpriv, hr, hmem, hg, hq, hfa, e1]
                        | ok r =>
                            simp [dispatchMessage, hf, hpriv, hr, hmem, hg, hq, hfa, e1]

theorem aget_adel_self {β : Type} (l : List (String × β)) (key : String) :
    aget (adel l key) key = none := by
  induction l with
  | nil => rfl
  | cons kv rest ih =>
      rcases kv with ⟨k, v⟩
      by_cases hk : k = key
      · simpa [adel, List.filter_cons, hk] using ih
      · simpa [adel, List.filter_cons, hk, aget] using ih

theorem error_line_ne_empty (err : JsError) : (err.render ++ "\n" ++ err.stack) ≠ "" := by
  intro h
  have hd : (err.render ++ "\n" ++ err.stack).data = "".data := congrArg String.data h
  simp [JsError.render, String.data_append] at hd

/-! ## Claim C6 -/

/-- C6: an exception thrown by the target during local dispatch of a call
is caught and converted into an error response envelope addressed back to
the caller, carrying `e.toString() + '\n' + e.stack` as a single string —
it never escapes the dispatch (`DispatchResult.respond`, not `threw`) —
and the dispatch leaves every pending completion (and all registry state;
only the handle-allocation counter may move) unchanged, so other in-flight
calls and subsequent messages are unaffected; when that response envelope
reaches the caller's world, where its reverse-correlation id is pending,
dispatching it fires exactly that pending completion as a rejection
carrying the same string. -/
theorem dispatch_error_becomes_response (st : RpcState) (payload : Payload)
    (h : Handle) (msg : Message) (err : JsError)
    (hrid : payload.rid = none)
    (hmsg : payload.message = some msg)
    (hh : aget st.idToHandle_ payload.to_.2 = some h)
    (herr : (dispatchMessage st h msg.m msg.p).2 = .error err) :
    dispatchMessageLocally st payload =
      ((dispatchMessage st h msg.m msg.p).1,
       .respond { to_ := payload.from_, from_ := payload.to_, rid := payload.id,
                  e := some (err.render ++ "\n" ++ err.stack) }) ∧
    ((dispatchMessage st h msg.m msg.p).1).callbacks_ = st.callbacks_ ∧
    sansCounter (dispatchMessage st h msg.m msg.p).1 = sansCounter st ∧
    (∀ (st2 : RpcState) (rid : Nat), payload.id = some rid → rid ∈ st2.callbacks_ →
      dispatchMessageLocally st2
          { to_ := payload.from_, from_ := payload.to_, rid := payload.id,
            e := some (err.render ++ "\n" ++ err.stack) } =
        ({ st2 with callbacks_ := st2.callbacks_.filter (fun i => i ≠ rid) },
         .completed rid (.error (err.render ++ "\n" ++ err.stack)))) := by
  refine ⟨?_, ?_, sansCounter_dispatch st h msg.m msg.p, ?_⟩
  · rcases hq : dispatchMessage st h msg.m msg.p with ⟨st1, res⟩
    rw [hq] at herr
    simp only at herr
    subst herr
    simp [dispatchMessageLocally, hrid, hmsg, hh, hq]
  · have hs := sansCounter_dispatch st h msg.m msg.p
    have hcal : (sansCounter (dispatchMessage st h msg.m msg.p).1).callbacks_ =
        (sansCounter st).callbacks_ := congrArg RpcState.callbacks_ hs
    exact hcal
  · intro st2 rid hid hin
    simp [dispatchMessageLocally, hid, hin, error_line_ne_empty err]

/-- Witness for C6: the throwing method of `tgtBoom`. -/
theorem dispatch_error_becomes_response_witness :
    dispatchMessageLocally stBoom pBoom =
      ((dispatchMessage stBoom hBoom "fail" []).1,
       .respond { to_ := (".", "undefined#5"), from_ := (".", "Boom#1"), rid := some 7,
                  e := some (boomErr.render ++ "\n" ++ boomErr.stack) }) ∧
    ((dispatchMessage stBoom hBoom "fail" []).1).callbacks_ = stBoom.callbacks_ ∧
    sansCounter (dispatchMessage stBoom hBoom "fail" []).1 = sansCounter stBoom ∧
    (∀ (st2 : RpcState) (rid : Nat), pBoom.id = some rid → rid ∈ st2.callbacks_ →
      dispatchMessageLocally st2
          { to_ := pBoom.from_, from_ := pBoom.to_, rid := pBoom.id,
            e := some (boomErr.render ++ "\n" ++ boomErr.stack) } =
        ({ st2 with callbacks_ := st2.callbacks_.filter (fun i => i ≠ rid) },
         .completed rid (.error (boomErr.render ++ "\n" ++ boomErr.stack)))) :=
  dispatch_error_becomes_response stBoom pBoom hBoom ⟨"fail", []⟩ boomErr rfl rfl rfl rfl

/-! ## Claim C7 -/

/-- C7: after `dispose` succeeds on a primary local handle, its address is
removed from the world's export registry, and every subsequent call payload
addressed to that address — whichever handle the caller used to produce it
— receives the `'Object has been diposed.'` error response rather than a
silent no-op or a router failure; `dispose` on a non-primary
(remote-facing) handle fails with the invalid-operation error, and the
registry is untouched (an error return carries no state change). -/
theorem dispose_semantics (st : RpcState) (h : Handle) (k : String)
    (hP : h.object_ = some k) :
    dispose st h = .ok { st with idToHandle_ := adel st.idToHandle_ h.address_.2 } ∧
    aget (adel st.idToHandle_ h.address_.2) h.address_.2 = none ∧
    (∀ payload : Payload, payload.rid = none → payload.to_.2 = h.address_.2 →
      dispatchMessageLocally
          { st with idToHandle_ := adel st.idToHandle_ h.address_.2 } payload =
        ({ st with idToHandle_ := adel st.idToHandle_ h.address_.2 },
         .respond { to_ := payload.from_, from_ := payload.to_, rid := payload.id,
                    e := some "Object has been diposed." })) ∧
    (∀ h2 : Handle, h2.object_ = none →
      dispose st h2 =
        .error "Can only dipose handle that was explicitly created with rpc.handle()") := by
  refine ⟨?_, aget_adel_self _ _, ?_, ?_⟩
  · simp [dispose, hP]
  · intro payload hr ht
    simp [dispatchMessageLocally, hr, ht, aget_adel_self]
  · intro h2 h2n
    simp [dispose, h2n]

/-- Witness for C7: export `tgtFoo`, dispose it, call it again; and dispose
a non-primary handle. -/
theorem dispose_semantics_witness :
    dispose stFoo hFoo = .ok stFooDisposed ∧
    aget stFooDisposed.idToHandle_ "Foo#1" = none ∧
    dispatchMessageLocally stFooDisposed pFooCall =
      (stFooDisposed,
       .respond { to_ := (".", "caller#9"), from_ := (".", "Foo#1"), rid := some 3,
                  e := some "Object has been diposed." }) ∧
    dispose stFoo secondaryHandle =
      .error "Can only dipose handle that was explicitly created with rpc.handle()" := by
  obtain ⟨h1, h2, h3, h4⟩ := dispose_semantics stFoo hFoo "Foo#1" rfl
  exact ⟨h1, h2, h3 pFooCall rfl rfl, h4 secondaryHandle rfl⟩

/-! ## Claim C8 -/

/-- C8 counterexample: a response whose reverse-correlation id matches no
pending completion is **not** a silent no-op — destructuring the absent
map entry throws a `TypeError` (which, the enclosing dispatch being
async and unawaited, surfaces as an unhandled promise rejection). The
pending-call state is indeed unchanged and no callback fires, but an
error is raised. -/
theorem unknown_rid_not_silent :
    (dispatchMessageLocally stC8 pC8).1 = stC8 ∧
    (dispatchMessageLocally stC8 pC8).2 = .threw destructureError :=
  ⟨rfl, rfl⟩

/-- C8 (amended): when a response envelope arrives whose
reverse-correlation id matches no registered pending completion, no
callback fires and the correlator's pending-call state is unchanged, but
the dispatch is not silent: it throws a `TypeError` from destructuring the
missing `callbacks_` entry, surfacing as an unhandled async rejection. -/
theorem unknown_rid_throws (st : RpcState) (payload : Payload) (rid : Nat)
    (hr : payload.rid = some rid) (hmiss : rid ∉ st.callbacks_) :
    dispatchMessageLocally st payload = (st, .threw destructureError) := by
  simp [dispatchMessageLocally, hr, hmiss]

/-- Witness for C8 (amended): id 5 against pending ids `[1, 2]`. -/
theorem unknown_rid_throws_witness :
    dispatchMessageLocally stC8 pC8 = (stC8, .threw destructureError) :=
  unknown_rid_throws stC8 pC8 5 rfl (by decide)

/-! ## Claim C1 -/

/-- C1: for every non-handshake payload, `routeMessage_` applies its steps
in the claimed order — drop silently with no state change when the message
did not arrive from the parent and the declared sender's world id is
neither the current world id nor an (inclusive) descendant of a registered
child world; dispatch locally when the destination world id equals the
current world id; forward the payload unchanged to the delivery function
of a registered child world whose id is a prefix of the destination world
id; drop silently when the current world id is a prefix of the destination
world id (a now-disposed descendant); otherwise forward to the parent —
stated as equality with `routeSpecC1`, which is transcribed from the
claim's wording, and with the state returned unchanged in every branch. -/
theorem route_order (st : RpcState) (fromParent : Bool) (payload : Payload)
    (hc : payload.cookie = false) (hcr : payload.cookieResponse = false) :
    routeMessage_ st fromParent payload = (st, routeSpecC1 st fromParent payload) := by
  unfold routeMessage_ routeSpecC1
  rw [hc, hcr]
  simp only [Bool.false_eq_true, if_false]
  have hact : isActiveWorld_ st payload.from_.1 =
      (st.worldId_ = payload.from_.1 ||
        st.worlds_.any (fun wid => jsStartsWith payload.from_.1 wid)) := rfl
  rw [hact]
  split
  · rfl
  · split
    · rfl
    · split
      · rfl
      · split
        · rfl
        · rfl

/-- Witness for C1: a world `./2` with child `./2/1` forwards a payload
addressed to grandchild `./2/1/3` to that child. -/
theorem route_order_witness :
    routeMessage_ stRoute false pRoute = (stRoute, RouteResult.toChild "./2/1") :=
  (route_order stRoute false pRoute rfl rfl).trans rfl

end CarloRpc
